import Mathlib

/-!
Shallow embedding of the square-crop engine of `src/src/image_cropper_agent.py`
(class `ImageCropperAgent`): foreground bounds detection, square crop planning,
crop execution, the basic center-crop fallback, the top-level `crop_to_square`
entry point and the batch runner `crop_multiple_images`.

Images are modelled as a width, a height and a total pixel function giving each
coordinate its list of channel values (0..255 scale).  Effectful operations
(`Image.open`, `save`) and exceptions raised inside the steps are modelled by an
environment record: each injection point corresponds to a place in the Python
code where an exception can be raised, and the embedding routes it exactly
where Python control flow would (to the single outer `try/except` of
`crop_to_square`).
-/

/-- An image: a `width × height` grid of pixels, each pixel a list of channel
values on the 0..255 scale (one entry for grayscale, three or four for
RGB/RGBA).  `pix` is total; only coordinates `x < width`, `y < height` are
meaningful. -/
structure Img where
  width : ℕ
  height : ℕ
  pix : ℕ → ℕ → List ℕ

/-- `PIL.Image.crop((left, top, right, bottom))`: the resulting image has size
`(right - left, bottom - top)` and pixel `(x, y)` taken at
`(left + x, top + y)` of the source.  All crop boxes used by the engine lie
inside the source image. -/
def Img.crop (img : Img) (left top right bottom : ℕ) : Img :=
  { width := right - left
    height := bottom - top
    pix := fun x y => img.pix (left + x) (top + y) }

/-- `image.size` in PIL: the pair `(width, height)`. -/
def Img.size (img : Img) : ℕ × ℕ :=
  (img.width, img.height)

/-- Foreground test of `_find_product_bounds` (line 120): the grayscale value
`gray = np.mean(img_array, axis=2)` is compared with `gray < 240`.  For a
channel list `p` the float64 mean is `p.sum / p.length`, and since channel
values are at most 255 and there are at most a handful of channels the float
comparison `mean < 240` holds exactly when `p.sum < 240 * p.length` (the
division error is far below the distance to the threshold); the single-channel
case `gray = img_array` is the instance `p = [v]`. -/
def isForeground (p : List ℕ) : Bool :=
  decide (p.sum < 240 * p.length)

/-- `cols = np.any(non_white_mask, axis=0)` at column `x`: some row of column
`x` holds a foreground pixel. -/
def colHasFg (img : Img) (x : ℕ) : Bool :=
  (List.range img.height).any fun y => isForeground (img.pix x y)

/-- `rows = np.any(non_white_mask, axis=1)` at row `y`: some column of row `y`
holds a foreground pixel. -/
def rowHasFg (img : Img) (y : ℕ) : Bool :=
  (List.range img.width).any fun x => isForeground (img.pix x y)

/-- `ImageCropperAgent._find_product_bounds` (lines 95-138).  The indices of
the `True` entries of `cols` (resp. `rows`) are, in increasing order, the
filtered range below; `np.where(...)[0][[0, -1]]` takes its first and last
element.  When the mask is empty (`not np.any(non_white_mask)`) the function
returns `None`; otherwise `(x_min, y_min, x_max + 1, y_max + 1)`. -/
def find_product_bounds (img : Img) : Option (ℕ × ℕ × ℕ × ℕ) :=
  let fgCols := (List.range img.width).filter (colHasFg img)
  let fgRows := (List.range img.height).filter (rowHasFg img)
  match fgCols.head?, fgCols.getLast?, fgRows.head?, fgRows.getLast? with
  | some x0, some x1, some y0, some y1 => some (x0, y0, x1 + 1, y1 + 1)
  | _, _, _, _ => none

/-- `padding = int(max_dimension * 0.2)` (line 162).  The binary64 literal
`0.2` denotes exactly `3602879701896397 / 2 ^ 54`; `int` truncates toward zero.
For every `n` below `2 ^ 52` the rounding of the float product never crosses an
integer boundary, so `int(n * 0.2)` equals the exact rational floor embedded
here. -/
def paddingOf (max_dimension : ℕ) : ℕ :=
  max_dimension * 3602879701896397 / 2 ^ 54

/-- The `crop_size` computed by `_calculate_optimal_crop` from the product
bounds alone (lines 153-163): the larger product dimension plus twice the
padding. -/
def cropSizeOf (product_bounds : ℕ × ℕ × ℕ × ℕ) : ℕ :=
  let left := product_bounds.1
  let top := product_bounds.2.1
  let right := product_bounds.2.2.1
  let bottom := product_bounds.2.2.2
  let product_width := right - left
  let product_height := bottom - top
  let max_dimension := max product_width product_height
  max_dimension + 2 * paddingOf max_dimension

/-- `ImageCropperAgent._calculate_optimal_crop` (lines 140-181).  All the
Python quantities are nonnegative integers; `max(0, a - b)` on ints coincides
with truncated subtraction on `ℕ`, and Python `//` is `Nat` division here. -/
def calculate_optimal_crop (product_bounds : ℕ × ℕ × ℕ × ℕ)
    (width height : ℕ) : ℕ × ℕ × ℕ × ℕ :=
  let left := product_bounds.1
  let top := product_bounds.2.1
  let right := product_bounds.2.2.1
  let bottom := product_bounds.2.2.2
  let product_width := right - left
  let product_height := bottom - top
  let max_dimension := max product_width product_height
  let padding := paddingOf max_dimension
  let crop_size := max_dimension + 2 * padding
  let product_center_x := (left + right) / 2
  let product_center_y := (top + bottom) / 2
  let crop_left := product_center_x - crop_size / 2
  let crop_top := product_center_y - crop_size / 2
  let crop_right := min width (crop_left + crop_size)
  let crop_bottom := min height (crop_top + crop_size)
  let crop_left := if crop_right - crop_left < crop_size
    then crop_right - crop_size else crop_left
  let crop_top := if crop_bottom - crop_top < crop_size
    then crop_bottom - crop_size else crop_top
  (crop_left, crop_top, crop_right, crop_bottom)

/-- `ImageCropperAgent._apply_intelligent_crop` (lines 183-209): apply the
planned region, then force exact squareness by a secondary center crop to the
smaller dimension. -/
def apply_intelligent_crop (image : Img) (crop_area : ℕ × ℕ × ℕ × ℕ) : Img :=
  let cropped := image.crop crop_area.1 crop_area.2.1 crop_area.2.2.1 crop_area.2.2.2
  let width := cropped.width
  let height := cropped.height
  let size := min width height
  let left := (width - size) / 2
  let top := (height - size) / 2
  cropped.crop left top (left + size) (top + size)

/-- The result dictionary of `crop_to_square` / `_basic_crop` /
`crop_multiple_images` items.  Keys absent from a given Python branch are
`none`/`false` here.  `savedImage` records the image written to `output_path`
(the bytes persisted by `save`), `none` when nothing was written. -/
structure CropResult where
  success : Bool
  message : Option String := none
  error : Option String := none
  output_path : Option String := none
  original_dimensions : Option (ℕ × ℕ) := none
  cropped_dimensions : Option (ℕ × ℕ) := none
  product_bounds : Option (ℕ × ℕ × ℕ × ℕ) := none
  crop_area : Option (ℕ × ℕ × ℕ × ℕ) := none
  crop_applied : Bool := false
  crop_coordinates : Option (ℕ × ℕ × ℕ × ℕ) := none
  savedImage : Option Img := none

/-- The environment of one `crop_to_square` invocation: the outcome of
`Image.open` (the decoded image, or the message of the raised exception), the
resolved output path, and for each later step an optional exception injected
at that point in the Python code (`none` means the step completes normally).
Each exception value is the `str(e)` of the raised exception. -/
structure Env where
  load : Except String Img
  outPath : String
  detectExc : Option String := none
  planExc : Option String := none
  execExc : Option String := none
  saveExc : Option String := none

/-- The dictionary built by the `except` clause of `crop_to_square`
(lines 87-93): `success=False`, `error=str(e)`, `output_path=None`,
`crop_applied=False`. -/
def mkErrorResult (e : String) : CropResult :=
  { success := false
    error := some e
    output_path := none
    crop_applied := false }

/-- `ImageCropperAgent._basic_crop` (lines 211-288), the fallback center crop.
It runs inside the outer `try` of `crop_to_square`, so a raising `save` lands
in the outer `except`; the caller passes that injection point in `saveExc`. -/
def basic_crop (image : Img) (outPath : String) (saveExc : Option String) :
    CropResult :=
  let width := image.width
  let height := image.height
  if width > height then
    let new_size := height
    let left := (width - new_size) / 2
    let top := 0
    let right := left + new_size
    let bottom := height
    let cropped_image := image.crop left top right bottom
    match saveExc with
    | some e => mkErrorResult e
    | none =>
      { success := true
        message := some "Basic crop to 1:1 ratio"
        output_path := some outPath
        original_dimensions := some (width, height)
        cropped_dimensions := some (new_size, new_size)
        crop_applied := true
        crop_coordinates := some (left, top, right, bottom)
        savedImage := some cropped_image }
  else if height > width then
    let new_size := width
    let left := 0
    let top := (height - new_size) / 2
    let right := width
    let bottom := top + new_size
    let cropped_image := image.crop left top right bottom
    match saveExc with
    | some e => mkErrorResult e
    | none =>
      { success := true
        message := some "Basic crop to 1:1 ratio"
        output_path := some outPath
        original_dimensions := some (width, height)
        cropped_dimensions := some (new_size, new_size)
        crop_applied := true
        crop_coordinates := some (left, top, right, bottom)
        savedImage := some cropped_image }
  else
    match saveExc with
    | some e => mkErrorResult e
    | none =>
      { success := true
        message := some "Image is already square (1:1 ratio)"
        output_path := some outPath
        original_dimensions := some (width, height)
        cropped_dimensions := some (width, height)
        crop_applied := false
        savedImage := some image }

/-- `ImageCropperAgent.crop_to_square` (lines 22-93).  The whole body sits in
one `try`: a failing `Image.open`, or an exception injected at any later step,
reaches the single `except` clause and becomes `mkErrorResult`.  When
`_find_product_bounds` returns `None` the function delegates to `_basic_crop`;
otherwise it plans, executes and saves the intelligent crop. -/
def crop_to_square (env : Env) : CropResult :=
  match env.load with
  | .error e => mkErrorResult e
  | .ok image =>
    let original_width := image.width
    let original_height := image.height
    match env.detectExc with
    | some e => mkErrorResult e
    | none =>
      match find_product_bounds image with
      | none => basic_crop image env.outPath env.saveExc
      | some product_bounds =>
        match env.planExc with
        | some e => mkErrorResult e
        | none =>
          let crop_area :=
            calculate_optimal_crop product_bounds original_width original_height
          match env.execExc with
          | some e => mkErrorResult e
          | none =>
            let cropped_image := apply_intelligent_crop image crop_area
            match env.saveExc with
            | some e => mkErrorResult e
            | none =>
              { success := true
                message := some "Intelligently cropped to 1:1 ratio"
                output_path := some env.outPath
                original_dimensions := some (original_width, original_height)
                cropped_dimensions := some cropped_image.size
                product_bounds := some product_bounds
                crop_area := some crop_area
                crop_applied := true
                savedImage := some cropped_image }

/-- The dictionary returned by `crop_multiple_images` (lines 333-340). -/
structure BatchReport where
  success : Bool
  total_images : ℕ
  successful_crops : ℕ
  failed_crops : ℕ
  results : List (String × CropResult)
  output_directory : String

/-- `ImageCropperAgent.crop_multiple_images` (lines 290-340).  Each batch item
is a path together with the environment its `crop_to_square` call runs in.
The loop appends `(image_path, result)` to `results` and counts successes; the
path manipulation before the call (`os.path.splitext` and friends) is total,
so the per-item `except` clause is unreachable and the loop body is the
`crop_to_square` call itself. -/
def crop_multiple_images (items : List (String × Env)) (output_dir : String) :
    BatchReport :=
  let step := fun (acc : List (String × CropResult) × ℕ) (it : String × Env) =>
    let result := crop_to_square it.2
    (acc.1 ++ [(it.1, result)], if result.success then acc.2 + 1 else acc.2)
  let folded := items.foldl step ([], 0)
  { success := decide (0 < folded.2)
    total_images := items.length
    successful_crops := folded.2
    failed_crops := items.length - folded.2
    results := folded.1
    output_directory := output_dir }

/-- Modelled from the spec of claim C5 only (a refinement comparison target,
not code of the repository): the padding formula as the claim words it,
`padding = round(max_dimension * padding_ratio)` with nearest-integer rounding
and the default ratio `0.2`. -/
def paddingSpecRound (max_dimension : ℕ) : ℤ :=
  round ((max_dimension : ℚ) * (2 / 10))

/-- Non-degenerate exception messages: every exception an environment injects
carries a non-empty `str(e)` (true of the decode, I/O and library exceptions
that can actually occur in the Python code). -/
def envMsgsOk (env : Env) : Prop :=
  (∀ e, env.load = .error e → e ≠ "") ∧
  (∀ e, env.detectExc = some e → e ≠ "") ∧
  (∀ e, env.planExc = some e → e ≠ "") ∧
  (∀ e, env.execExc = some e → e ≠ "") ∧
  (∀ e, env.saveExc = some e → e ≠ "")

/-- Some step that actually executes during `crop_to_square env` raises: the
load fails, or detection raises, or — on the path actually taken after
detection — the fallback save, or planning, execution, or the intelligent-path
save raises. -/
def stepRaises (env : Env) : Prop :=
  match env.load with
  | .error _ => True
  | .ok image =>
    env.detectExc ≠ none ∨
    (match find_product_bounds image with
     | none => env.saveExc ≠ none
     | some _ => env.planExc ≠ none ∨ env.execExc ≠ none ∨ env.saveExc ≠ none)

/-- Test fixture: a 2×2 RGB image with every pixel pure white. -/
def imgWhite2 : Img :=
  { width := 2, height := 2, pix := fun _ _ => [255, 255, 255] }

/-- Test fixture: a 2×2 RGB image with every pixel pure black. -/
def imgBlack2 : Img :=
  { width := 2, height := 2, pix := fun _ _ => [0, 0, 0] }

/-- Test fixture: a 3×2 grayscale image whose only foreground pixel sits at
column 1, row 0. -/
def imgDot : Img :=
  { width := 3, height := 2, pix := fun x y => if x = 1 ∧ y = 0 then [0] else [255] }

/-- Test fixture: an environment in which `Image.open` decodes `img` and no
step raises. -/
def envOf (img : Img) : Env :=
  { load := .ok img, outPath := "cropped_images/img_cropped.png" }

/-- Test fixture: an environment for a non-existent input path; `Image.open`
raises `FileNotFoundError`. -/
def envMissing : Env :=
  { load := .error "No such file or directory: missing.png"
    outPath := "cropped_images/missing_cropped.png" }

/-- Test fixture: detection raises on a decodable image. -/
def envDetectBoom : Env :=
  { load := .ok imgBlack2
    outPath := "cropped_images/img_cropped.png"
    detectExc := some "boom" }

/-- Test fixture: the three-item batch of the spec's partial-failure property —
the second path does not exist, the other two decode to `imgBlack2`. -/
def batch3 : List (String × Env) :=
  [("a.png", envOf imgBlack2), ("missing.png", envMissing),
   ("c.png", envOf imgBlack2)]

lemma apply_intelligent_crop_square (image : Img) (a : ℕ × ℕ × ℕ × ℕ) :
    ∃ s, (apply_intelligent_crop image a).size = (s, s) := by
  refine ⟨min (a.2.2.1 - a.1) (a.2.2.2 - a.2.1), ?_⟩
  simp only [apply_intelligent_crop, Img.crop, Img.size, Prod.mk.injEq]
  constructor <;> omega

lemma basic_crop_success_square (image : Img) (p : String) (s : Option String)
    (h : (basic_crop image p s).success = true) :
    ∃ n, (basic_crop image p s).cropped_dimensions = some (n, n) := by
  unfold basic_crop at h ⊢
  dsimp only at h ⊢
  split_ifs at h ⊢ <;> cases s <;>
    simp_all [mkErrorResult]
  omega

lemma head?_pairwise_min {l : List ℕ} (hl : l.Pairwise (· < ·)) {a : ℕ}
    (ha : l.head? = some a) : a ∈ l ∧ ∀ b ∈ l, a ≤ b := by
  cases l with
  | nil => simp at ha
  | cons x xs =>
    simp only [List.head?_cons, Option.some.injEq] at ha
    subst ha
    rw [List.pairwise_cons] at hl
    refine ⟨List.mem_cons_self _ _, ?_⟩
    intro b hb
    rcases List.mem_cons.mp hb with h | h
    · simp [h]
    · exact (hl.1 b h).le

lemma getLast?_pairwise_max {l : List ℕ} (hl : l.Pairwise (· < ·)) {a : ℕ}
    (ha : l.getLast? = some a) : a ∈ l ∧ ∀ b ∈ l, b ≤ a := by
  induction l with
  | nil => simp at ha
  | cons x xs ih =>
    cases xs with
    | nil =>
      simp only [List.getLast?_singleton, Option.some.injEq] at ha
      subst ha
      simp
    | cons y ys =>
      rw [List.getLast?_cons_cons] at ha
      rw [List.pairwise_cons] at hl
      obtain ⟨hmem, hmax⟩ := ih hl.2 ha
      refine ⟨List.mem_cons_of_mem _ hmem, ?_⟩
      intro b hb
      rcases List.mem_cons.mp hb with h | h
      · subst h
        exact (hl.1 a hmem).le
      · exact hmax b h

lemma mem_filter_range {n x : ℕ} {p : ℕ → Bool} :
    x ∈ (List.range n).filter p ↔ x < n ∧ p x = true := by
  simp [List.mem_filter, List.mem_range]

lemma pairwise_filter_range (n : ℕ) (p : ℕ → Bool) :
    ((List.range n).filter p).Pairwise (· < ·) :=
  (List.pairwise_lt_range n).filter p

lemma colHasFg_iff (img : Img) (x : ℕ) :
    colHasFg img x = true ↔
      ∃ y, y < img.height ∧ isForeground (img.pix x y) = true := by
  simp [colHasFg, List.any_eq_true, List.mem_range]

lemma rowHasFg_iff (img : Img) (y : ℕ) :
    rowHasFg img y = true ↔
      ∃ x, x < img.width ∧ isForeground (img.pix x y) = true := by
  simp [rowHasFg, List.any_eq_true, List.mem_range]

/-- C2: whenever `crop_to_square` reports `success = true`, the reported
`cropped_dimensions` are square — on the intelligent path because of the
secondary `min(w, h)` center crop, and on the fallback path by construction. -/
theorem crop_to_square_success_square (env : Env)
    (h : (crop_to_square env).success = true) :
    ∃ s, (crop_to_square env).cropped_dimensions = some (s, s) := by
  obtain ⟨load, outPath, dExc, pExc, eExc, sExc⟩ := env
  cases load with
  | error e => simp [crop_to_square, mkErrorResult] at h
  | ok image =>
    cases dExc with
    | some e => simp [crop_to_square, mkErrorResult] at h
    | none =>
      cases hb : find_product_bounds image with
      | none =>
        simp only [crop_to_square, hb] at h ⊢
        exact basic_crop_success_square image outPath sExc h
      | some bnds =>
        cases pExc with
        | some e => simp [crop_to_square, hb, mkErrorResult] at h
        | none =>
          cases eExc with
          | some e => simp [crop_to_square, hb, mkErrorResult] at h
          | none =>
            cases sExc with
            | some e => simp [crop_to_square, hb, mkErrorResult] at h
            | none =>
              simp only [crop_to_square, hb]
              obtain ⟨s, hs⟩ := apply_intelligent_crop_square image
                (calculate_optimal_crop bnds image.width image.height)
              exact ⟨s, by simp [hs]⟩

/-- Witness for C2: a concrete successful run (an all-white 2×2 image goes
through the fallback) has square reported dimensions. -/
theorem crop_to_square_success_square_witness :
    ∃ s, (crop_to_square (envOf imgWhite2)).cropped_dimensions = some (s, s) :=
  crop_to_square_success_square (envOf imgWhite2) (by decide)

/-- C9: along each axis the planned region spans exactly
`min (crop_size) (image extent)`: the boundary adjustment restores the full
`crop_size` wherever the image is large enough and spans the whole image
otherwise. -/
theorem calculate_optimal_crop_extent (l t r b W H : ℕ)
    (hlr : l < r) (hrW : r ≤ W) (htb : t < b) (hbH : b ≤ H) :
    (calculate_optimal_crop (l, t, r, b) W H).2.2.1 -
        (calculate_optimal_crop (l, t, r, b) W H).1 =
      min (cropSizeOf (l, t, r, b)) W ∧
    (calculate_optimal_crop (l, t, r, b) W H).2.2.2 -
        (calculate_optimal_crop (l, t, r, b) W H).2.1 =
      min (cropSizeOf (l, t, r, b)) H := by
  simp only [calculate_optimal_crop, cropSizeOf]
  split_ifs <;> constructor <;> omega

/-- Witness for C9 at a concrete bounding box and image. -/
theorem calculate_optimal_crop_extent_witness :
    (calculate_optimal_crop (5, 0, 105, 90) 200 100).2.2.1 -
        (calculate_optimal_crop (5, 0, 105, 90) 200 100).1 =
      min (cropSizeOf (5, 0, 105, 90)) 200 ∧
    (calculate_optimal_crop (5, 0, 105, 90) 200 100).2.2.2 -
        (calculate_optimal_crop (5, 0, 105, 90) 200 100).2.1 =
      min (cropSizeOf (5, 0, 105, 90)) 100 :=
  calculate_optimal_crop_extent 5 0 105 90 200 100 (by decide) (by decide)
    (by decide) (by decide)

/-- C4: the planned crop region always lies inside `[0, W] × [0, H]` (lower
edges are nonnegative by the `ℕ` encoding of `max(0, ·)`), and whenever
`crop_size ≤ min W H` it contains the whole product bounding box. -/
theorem calculate_optimal_crop_contained (l t r b W H : ℕ)
    (hlr : l < r) (hrW : r ≤ W) (htb : t < b) (hbH : b ≤ H) :
    ((calculate_optimal_crop (l, t, r, b) W H).1 ≤
        (calculate_optimal_crop (l, t, r, b) W H).2.2.1 ∧
      (calculate_optimal_crop (l, t, r, b) W H).2.2.1 ≤ W ∧
      (calculate_optimal_crop (l, t, r, b) W H).2.1 ≤
        (calculate_optimal_crop (l, t, r, b) W H).2.2.2 ∧
      (calculate_optimal_crop (l, t, r, b) W H).2.2.2 ≤ H) ∧
    (cropSizeOf (l, t, r, b) ≤ min W H →
      (calculate_optimal_crop (l, t, r, b) W H).1 ≤ l ∧
      r ≤ (calculate_optimal_crop (l, t, r, b) W H).2.2.1 ∧
      (calculate_optimal_crop (l, t, r, b) W H).2.1 ≤ t ∧
      b ≤ (calculate_optimal_crop (l, t, r, b) W H).2.2.2) := by
  simp only [calculate_optimal_crop, cropSizeOf]
  split_ifs <;>
    refine ⟨⟨?_, ?_, ?_, ?_⟩, fun hcs => ⟨?_, ?_, ?_, ?_⟩⟩ <;> omega

/-- Witness for C4 at a concrete bounding box and image (the crop size 140
fits inside the 200×150 image, so the containment branch is exercised). -/
theorem calculate_optimal_crop_contained_witness :
    ((calculate_optimal_crop (40, 20, 140, 110) 200 150).1 ≤
        (calculate_optimal_crop (40, 20, 140, 110) 200 150).2.2.1 ∧
      (calculate_optimal_crop (40, 20, 140, 110) 200 150).2.2.1 ≤ 200 ∧
      (calculate_optimal_crop (40, 20, 140, 110) 200 150).2.1 ≤
        (calculate_optimal_crop (40, 20, 140, 110) 200 150).2.2.2 ∧
      (calculate_optimal_crop (40, 20, 140, 110) 200 150).2.2.2 ≤ 150) ∧
    (cropSizeOf (40, 20, 140, 110) ≤ min 200 150 →
      (calculate_optimal_crop (40, 20, 140, 110) 200 150).1 ≤ 40 ∧
      140 ≤ (calculate_optimal_crop (40, 20, 140, 110) 200 150).2.2.1 ∧
      (calculate_optimal_crop (40, 20, 140, 110) 200 150).2.1 ≤ 20 ∧
      110 ≤ (calculate_optimal_crop (40, 20, 140, 110) 200 150).2.2.2) :=
  calculate_optimal_crop_contained 40 20 140 110 200 150 (by decide) (by decide)
    (by decide) (by decide)

/-- C5 counterexample: the code truncates the padding (`int(...)`) instead of
rounding it to the nearest integer.  For a bounding box of larger dimension 3
the code computes padding 0 and crop size 3, while the claimed formula
`round(3 * 0.2) = 1` would give crop size 5. -/
theorem planner_padding_round_cex :
    paddingOf 3 = 0 ∧ paddingSpecRound 3 = 1 ∧
    cropSizeOf (0, 0, 3, 1) = 3 ∧
    (3 : ℤ) + 2 * paddingSpecRound 3 = 5 := by
  have h : paddingSpecRound 3 = 1 := by
    unfold paddingSpecRound
    norm_num [round_eq]
  exact ⟨by decide, h, by decide, by rw [h]; decide⟩

/-- C5 (amended): the planner computes `padding = int(max_dimension * 0.2)`,
truncating toward zero — equal to `max_dimension / 5` for every realistic
dimension — and `crop_size = max_dimension + 2 * padding`; in particular, for
bounds of width 100 and height at most 100, `crop_size = 140`. -/
theorem planner_padding_crop_size (md : ℕ) (hmd : md ≤ 10 ^ 9) :
    paddingOf md = md / 5 ∧
    ∀ l t r b : ℕ, r - l = 100 → b - t ≤ 100 →
      cropSizeOf (l, t, r, b) = 140 := by
  constructor
  · unfold paddingOf
    omega
  · intro l t r b h1 h2
    simp only [cropSizeOf]
    have hm : max (r - l) (b - t) = 100 := by omega
    rw [hm]
    decide

/-- Witness for C5 (amended): padding truncation and the 100-wide bounding box
instance at concrete inputs. -/
theorem planner_padding_crop_size_witness :
    paddingOf 100 = 100 / 5 ∧ cropSizeOf (5, 0, 105, 90) = 140 :=
  ⟨(planner_padding_crop_size 100 (by decide)).1,
   (planner_padding_crop_size 100 (by decide)).2 5 0 105 90 (by decide)
     (by decide)⟩

lemma basic_crop_save_exc (image : Img) (p e : String) :
    basic_crop image p (some e) = mkErrorResult e := by
  unfold basic_crop
  dsimp only
  split_ifs <;> rfl

lemma basic_crop_none_success (image : Img) (p : String) :
    (basic_crop image p none).success = true := by
  unfold basic_crop
  dsimp only
  split_ifs <;> rfl

/-- C1: `crop_to_square` is total over every environment (it returns a result
record for every input path, never raising), and whenever the load or any
later executed step raises, the record has `success = false` and a non-empty
error string (the message of the raised exception). -/
theorem crop_to_square_no_throw (env : Env) (hmsg : envMsgsOk env)
    (hr : stepRaises env) :
    (crop_to_square env).success = false ∧
    ∃ e, (crop_to_square env).error = some e ∧ e ≠ "" := by
  obtain ⟨load, outPath, dExc, pExc, eExc, sExc⟩ := env
  obtain ⟨h1, h2, h3, h4, h5⟩ := hmsg
  cases load with
  | error e => exact ⟨rfl, e, rfl, h1 e rfl⟩
  | ok image =>
    simp only [stepRaises] at hr
    cases dExc with
    | some e => exact ⟨rfl, e, rfl, h2 e rfl⟩
    | none =>
      cases hb : find_product_bounds image with
      | none =>
        simp only [hb] at hr
        cases sExc with
        | some e =>
          refine ⟨?_, e, ?_, h5 e rfl⟩ <;>
            simp [crop_to_square, hb, basic_crop_save_exc, mkErrorResult]
        | none => simp at hr
      | some bnds =>
        simp only [hb] at hr
        cases pExc with
        | some e =>
          refine ⟨?_, e, ?_, h3 e rfl⟩ <;>
            simp [crop_to_square, hb, mkErrorResult]
        | none =>
          cases eExc with
          | some e =>
            refine ⟨?_, e, ?_, h4 e rfl⟩ <;>
              simp [crop_to_square, hb, mkErrorResult]
          | none =>
            cases sExc with
            | some e =>
              refine ⟨?_, e, ?_, h5 e rfl⟩ <;>
                simp [crop_to_square, hb, mkErrorResult]
            | none => simp at hr

/-- Witness for C1: a non-existent input path yields `success = false` with a
populated error message. -/
theorem crop_to_square_no_throw_witness :
    (crop_to_square envMissing).success = false ∧
    ∃ e, (crop_to_square envMissing).error = some e ∧ e ≠ "" := by
  refine crop_to_square_no_throw envMissing ⟨?_, ?_, ?_, ?_, ?_⟩ trivial <;>
    intro e he <;> simp_all [envMissing] <;> subst he <;> decide

/-- C3 counterexample: a 2×2 all-black image is already square, yet
`crop_to_square` takes the intelligent path (foreground is detected
everywhere) and reports `crop_applied = true`, refuting the claim that every
already-square input comes back with `crop_applied = false`. -/
theorem square_unchanged_cex :
    imgBlack2.width = imgBlack2.height ∧
    (crop_to_square (envOf imgBlack2)).success = true ∧
    (crop_to_square (envOf imgBlack2)).crop_applied = true := by
  refine ⟨rfl, ?_, ?_⟩ <;> decide

/-- C3 (amended): for every already-square input image on which no product is
detected (detection returns `None`), `crop_to_square` falls back to
`_basic_crop`, which returns the image unchanged — identical pixel content and
dimensions — with `crop_applied = false`; images with detected foreground take
the intelligent path and report `crop_applied = true` instead. -/
theorem square_noop_when_no_foreground (env : Env) (img : Img)
    (hload : env.load = .ok img) (hd : env.detectExc = none)
    (hs : env.saveExc = none) (hsq : img.width = img.height)
    (hb : find_product_bounds img = none) :
    (crop_to_square env).success = true ∧
    (crop_to_square env).crop_applied = false ∧
    (crop_to_square env).original_dimensions = some (img.width, img.height) ∧
    (crop_to_square env).cropped_dimensions = some (img.width, img.height) ∧
    (crop_to_square env).savedImage = some img := by
  obtain ⟨load, outPath, dExc, pExc, eExc, sExc⟩ := env
  dsimp only at hload hd hs
  subst hload hd hs
  simp only [crop_to_square, hb]
  unfold basic_crop
  dsimp only
  split_ifs with g1 g2
  · exact absurd hsq (by omega)
  · exact absurd hsq (by omega)
  · exact ⟨rfl, rfl, rfl, rfl, rfl⟩

/-- Witness for C3 (amended): the all-white 2×2 image is returned unchanged
with `crop_applied = false`. -/
theorem square_noop_when_no_foreground_witness :
    (crop_to_square (envOf imgWhite2)).success = true ∧
    (crop_to_square (envOf imgWhite2)).crop_applied = false ∧
    (crop_to_square (envOf imgWhite2)).original_dimensions =
      some (imgWhite2.width, imgWhite2.height) ∧
    (crop_to_square (envOf imgWhite2)).cropped_dimensions =
      some (imgWhite2.width, imgWhite2.height) ∧
    (crop_to_square (envOf imgWhite2)).savedImage = some imgWhite2 :=
  square_noop_when_no_foreground (envOf imgWhite2) imgWhite2 rfl rfl rfl rfl
    (by decide)

/-- C6 counterexample: when the bounds-detection step raises, the outer
`except` clause of `crop_to_square` returns a failure record — not the basic
center-crop fallback with a successful square result that the claim
describes. -/
theorem exception_fallback_cex :
    (crop_to_square envDetectBoom).success = false ∧
    (crop_to_square envDetectBoom).error = some "boom" ∧
    (crop_to_square envDetectBoom).crop_applied = false :=
  ⟨rfl, rfl, rfl⟩

/-- C6 (amended): an exception raised by detection, planning, or execution is
caught by the single outer `try/except` of `crop_to_square`, which returns the
`success = false` error record; the basic center-crop fallback runs only when
detection returns `None` without raising, and in that case (absent a save
failure) the result is successful and square. -/
theorem exception_error_and_fallback (env : Env) (img : Img)
    (hload : env.load = .ok img) :
    (∀ e, env.detectExc = some e → crop_to_square env = mkErrorResult e) ∧
    (∀ e bnds, env.detectExc = none → find_product_bounds img = some bnds →
      env.planExc = some e → crop_to_square env = mkErrorResult e) ∧
    (∀ e bnds, env.detectExc = none → find_product_bounds img = some bnds →
      env.planExc = none → env.execExc = some e →
      crop_to_square env = mkErrorResult e) ∧
    (env.detectExc = none → env.saveExc = none →
      find_product_bounds img = none →
      (crop_to_square env).success = true ∧
      ∃ s, (crop_to_square env).cropped_dimensions = some (s, s)) := by
  obtain ⟨load, outPath, dExc, pExc, eExc, sExc⟩ := env
  dsimp only at hload
  subst hload
  refine ⟨?_, ?_, ?_, ?_⟩
  · intro e he
    dsimp only at he
    subst he
    rfl
  · intro e bnds hd hb hp
    dsimp only at hd hp
    subst hd hp
    simp [crop_to_square, hb, mkErrorResult]
  · intro e bnds hd hb hp hx
    dsimp only at hd hp hx
    subst hd hp hx
    simp [crop_to_square, hb, mkErrorResult]
  · intro hd hs hb
    dsimp only at hd hs
    subst hd hs
    simp only [crop_to_square, hb]
    exact ⟨basic_crop_none_success img outPath,
      basic_crop_success_square img outPath none
        (basic_crop_none_success img outPath)⟩

/-- Witness for C6 (amended): a concrete raising detection step produces the
error record. -/
theorem exception_error_and_fallback_witness :
    crop_to_square envDetectBoom = mkErrorResult "boom" :=
  (exception_error_and_fallback envDetectBoom imgBlack2 rfl).1 "boom" rfl

lemma batch_foldl_spec (items : List (String × Env))
    (res : List (String × CropResult)) (n : ℕ) :
    items.foldl
      (fun (acc : List (String × CropResult) × ℕ) (it : String × Env) =>
        let result := crop_to_square it.2
        (acc.1 ++ [(it.1, result)], if result.success then acc.2 + 1 else acc.2))
      (res, n) =
    (res ++ items.map (fun it => (it.1, crop_to_square it.2)),
      n + (items.map fun it => crop_to_square it.2).countP (fun r => r.success)) := by
  induction items generalizing res n with
  | nil => simp
  | cons hd tl ih =>
    simp only [List.foldl_cons, List.map_cons, List.countP_cons, ih]
    cases hsucc : (crop_to_square hd.2).success <;> simp [hsucc] <;> omega

/-- C7: the batch runner processes every item: the report totals equal the
input length, the successes count the items whose result has
`success = true`, the failures are the complement, and the results sequence
pairs each input path with its result in input order; in particular, for the
three-path batch whose second path does not exist, the totals are 3/2/1 and
the order is preserved. -/
theorem crop_multiple_images_report (items : List (String × Env))
    (dir : String) :
    (crop_multiple_images items dir).total_images = items.length ∧
    (crop_multiple_images items dir).results =
      items.map (fun it => (it.1, crop_to_square it.2)) ∧
    (crop_multiple_images items dir).successful_crops =
      (items.map fun it => crop_to_square it.2).countP (fun r => r.success) ∧
    (crop_multiple_images items dir).failed_crops =
      items.length - (crop_multiple_images items dir).successful_crops ∧
    ((crop_multiple_images batch3 dir).total_images = 3 ∧
      (crop_multiple_images batch3 dir).successful_crops = 2 ∧
      (crop_multiple_images batch3 dir).failed_crops = 1 ∧
      (crop_multiple_images batch3 dir).results.map Prod.fst =
        ["a.png", "missing.png", "c.png"]) := by
  have hgen : ∀ (its : List (String × Env)),
      (crop_multiple_images its dir).total_images = its.length ∧
      (crop_multiple_images its dir).results =
        its.map (fun it => (it.1, crop_to_square it.2)) ∧
      (crop_multiple_images its dir).successful_crops =
        (its.map fun it => crop_to_square it.2).countP (fun r => r.success) := by
    intro its
    simp only [crop_multiple_images]
    rw [batch_foldl_spec]
    simp
  obtain ⟨ht, hres, hcnt⟩ := hgen batch3
  refine ⟨(hgen items).1, (hgen items).2.1, (hgen items).2.2, rfl, ?_, ?_, ?_, ?_⟩
  · rw [ht]; rfl
  · rw [hcnt]; decide
  · simp only [crop_multiple_images]; rw [batch_foldl_spec]; decide
  · rw [hres]; rfl

/-- C10: the batch report's top-level `success` flag is true exactly when at
least one item succeeded, and the empty batch yields `success = false` with
all counts zero and no results. -/
theorem crop_multiple_images_success_iff (items : List (String × Env))
    (dir : String) :
    ((crop_multiple_images items dir).success = true ↔
      ∃ it ∈ items, (crop_to_square it.2).success = true) ∧
    ((crop_multiple_images ([] : List (String × Env)) dir).success = false ∧
      (crop_multiple_images ([] : List (String × Env)) dir).total_images = 0 ∧
      (crop_multiple_images ([] : List (String × Env)) dir).successful_crops = 0 ∧
      (crop_multiple_images ([] : List (String × Env)) dir).failed_crops = 0 ∧
      (crop_multiple_images ([] : List (String × Env)) dir).results = []) := by
  refine ⟨?_, rfl, rfl, rfl, rfl, rfl⟩
  simp only [crop_multiple_images]
  rw [batch_foldl_spec]
  simp only [List.nil_append, decide_eq_true_eq, Nat.zero_add, List.countP_pos,
    List.mem_map]
  constructor
  · rintro ⟨r, ⟨it, hit, rfl⟩, hr⟩
    exact ⟨it, hit, hr⟩
  · rintro ⟨it, hit, hr⟩
    exact ⟨crop_to_square it.2, ⟨it, hit, rfl⟩, hr⟩

/-- Witness for C10: the three-path batch has a successful item, so the flag
is true; the empty-batch conjuncts are instantiated directly. -/
theorem crop_multiple_images_success_iff_witness :
    (crop_multiple_images batch3 "cropped_images").success = true :=
  (crop_multiple_images_success_iff batch3 "cropped_images").1.mpr
    ⟨("a.png", envOf imgBlack2), by simp [batch3], by decide⟩

lemma filter_range_endpoints {n : ℕ} {p : ℕ → Bool} {a b : ℕ}
    (ha : ((List.range n).filter p).head? = some a)
    (hb : ((List.range n).filter p).getLast? = some b) :
    a < n ∧ p a = true ∧ (∀ x, x < a → p x = false) ∧
    b < n ∧ p b = true ∧ ∀ x, b < x → x < n → p x = false := by
  obtain ⟨hamem, hamin⟩ := head?_pairwise_min (pairwise_filter_range n p) ha
  obtain ⟨hbmem, hbmax⟩ := getLast?_pairwise_max (pairwise_filter_range n p) hb
  obtain ⟨haw, hap⟩ := mem_filter_range.mp hamem
  obtain ⟨hbw, hbp⟩ := mem_filter_range.mp hbmem
  refine ⟨haw, hap, ?_, hbw, hbp, ?_⟩
  · intro x hx
    by_contra hpx
    rw [Bool.not_eq_false] at hpx
    have hxmem : x ∈ (List.range n).filter p :=
      mem_filter_range.mpr ⟨hx.trans haw, hpx⟩
    exact absurd (hamin x hxmem) (by omega)
  · intro x hbx hxn
    by_contra hpx
    rw [Bool.not_eq_false] at hpx
    have hxmem : x ∈ (List.range n).filter p :=
      mem_filter_range.mpr ⟨hxn, hpx⟩
    exact absurd (hbmax x hxmem) (by omega)

lemma find_product_bounds_some {img : Img} {l t r b : ℕ}
    (h : find_product_bounds img = some (l, t, r, b)) :
    ∃ x0 x1 y0 y1,
      ((List.range img.width).filter (colHasFg img)).head? = some x0 ∧
      ((List.range img.width).filter (colHasFg img)).getLast? = some x1 ∧
      ((List.range img.height).filter (rowHasFg img)).head? = some y0 ∧
      ((List.range img.height).filter (rowHasFg img)).getLast? = some y1 ∧
      l = x0 ∧ t = y0 ∧ r = x1 + 1 ∧ b = y1 + 1 := by
  unfold find_product_bounds at h
  dsimp only at h
  split at h
  · next x0 x1 y0 y1 hc0 hc1 hr0 hr1 =>
      refine ⟨x0, x1, y0, y1, hc0, hc1, hr0, hr1, ?_, ?_, ?_, ?_⟩ <;>
        (simp only [Option.some.injEq, Prod.mk.injEq] at h; omega)
  · simp at h

/-- C8: the detector returns `None` exactly when no pixel is below the
luminance threshold 240 (mean of channels below 240), so a fully white image
yields `None`; otherwise it returns `(left, top, right, bottom)` where `left`
(resp. `top`) is the least column (resp. row) index containing a
below-threshold pixel and `right` (resp. `bottom`) is the greatest such index
plus one.  The first two conjuncts relate the column/row predicates to
individual pixels. -/
theorem find_product_bounds_spec (img : Img) :
    (∀ x, colHasFg img x = true ↔
      ∃ y, y < img.height ∧ isForeground (img.pix x y) = true) ∧
    (∀ y, rowHasFg img y = true ↔
      ∃ x, x < img.width ∧ isForeground (img.pix x y) = true) ∧
    (find_product_bounds img = none ↔
      ∀ x, x < img.width → ∀ y, y < img.height →
        isForeground (img.pix x y) = false) ∧
    (∀ l t r b, find_product_bounds img = some (l, t, r, b) →
      (l < img.width ∧ colHasFg img l = true ∧
        ∀ x, x < l → colHasFg img x = false) ∧
      (1 ≤ r ∧ r ≤ img.width ∧ colHasFg img (r - 1) = true ∧
        ∀ x, r ≤ x → x < img.width → colHasFg img x = false) ∧
      (t < img.height ∧ rowHasFg img t = true ∧
        ∀ y, y < t → rowHasFg img y = false) ∧
      (1 ≤ b ∧ b ≤ img.height ∧ rowHasFg img (b - 1) = true ∧
        ∀ y, b ≤ y → y < img.height → rowHasFg img y = false)) := by
  refine ⟨colHasFg_iff img, rowHasFg_iff img, ⟨?_, ?_⟩, ?_⟩
  · intro h x hx y hy
    by_contra hfg
    rw [Bool.not_eq_false] at hfg
    have hcx : colHasFg img x = true := (colHasFg_iff img x).mpr ⟨y, hy, hfg⟩
    have hry : rowHasFg img y = true := (rowHasFg_iff img y).mpr ⟨x, hx, hfg⟩
    have hxm : x ∈ (List.range img.width).filter (colHasFg img) :=
      mem_filter_range.mpr ⟨hx, hcx⟩
    have hym : y ∈ (List.range img.height).filter (rowHasFg img) :=
      mem_filter_range.mpr ⟨hy, hry⟩
    cases hc0 : ((List.range img.width).filter (colHasFg img)).head? with
    | none =>
      rw [List.head?_eq_none_iff] at hc0
      exact absurd hxm (by simp [hc0])
    | some x0 =>
      cases hc1 : ((List.range img.width).filter (colHasFg img)).getLast? with
      | none =>
        rw [List.getLast?_eq_none_iff] at hc1
        exact absurd hxm (by simp [hc1])
      | some x1 =>
        cases hr0 : ((List.range img.height).filter (rowHasFg img)).head? with
        | none =>
          rw [List.head?_eq_none_iff] at hr0
          exact absurd hym (by simp [hr0])
        | some y0 =>
          cases hr1 : ((List.range img.height).filter (rowHasFg img)).getLast? with
          | none =>
            rw [List.getLast?_eq_none_iff] at hr1
            exact absurd hym (by simp [hr1])
          | some y1 =>
            unfold find_product_bounds at h
            dsimp only at h
            rw [hc0, hc1, hr0, hr1] at h
            simp at h
  · intro hall
    have hc : (List.range img.width).filter (colHasFg img) = [] := by
      rw [List.filter_eq_nil]
      intro a ha
      rw [List.mem_range] at ha
      rw [Bool.not_eq_true, ← Bool.not_eq_true, colHasFg_iff]
      rintro ⟨y, hy, hfg⟩
      rw [hall a ha y hy] at hfg
      exact Bool.false_ne_true hfg
    unfold find_product_bounds
    dsimp only
    rw [hc]
    rfl
  · intro l t r b h
    obtain ⟨x0, x1, y0, y1, hc0, hc1, hr0, hr1, rfl, rfl, rfl, rfl⟩ :=
      find_product_bounds_some h
    obtain ⟨hx0w, hx0p, hx0min, hx1w, hx1p, hx1max⟩ :=
      filter_range_endpoints hc0 hc1
    obtain ⟨hy0w, hy0p, hy0min, hy1w, hy1p, hy1max⟩ :=
      filter_range_endpoints hr0 hr1
    refine ⟨⟨hx0w, hx0p, hx0min⟩,
      ⟨by omega, by omega, by simpa using hx1p, ?_⟩,
      ⟨hy0w, hy0p, hy0min⟩,
      ⟨by omega, by omega, by simpa using hy1p, ?_⟩⟩
    · intro x hx hxw
      exact hx1max x (by omega) hxw
    · intro y hy hyw
      exact hy1max y (by omega) hyw

/-- Witness for C8: the all-white 2×2 image yields `None` (through the
characterization), and the single-dot image has its foreground column 1
recognised through the `some` direction of the characterization. -/
theorem find_product_bounds_spec_witness :
    find_product_bounds imgWhite2 = none ∧ colHasFg imgDot 1 = true :=
  ⟨(find_product_bounds_spec imgWhite2).2.2.1.mpr (by decide),
   ((find_product_bounds_spec imgDot).2.2.2 1 0 2 1 (by decide)).1.2.1⟩
